import Mathlib

/-!
Verification model of the resilient remote-metadata client of the
package-pilot repository.

The definitions below are shallow embeddings of the TypeScript source:

* `src/ai/client.ts` — `ApiClient` (`request`, `shouldRetry`,
  `calculateBackoff`, `addToCache`, `getFromCache`);
* `src/test/services/offlineMode.ts` and `src/ai/offlineMode-previous.ts` —
  `OfflineModeService` (`toggleOfflineMode`, `setRateLimited`,
  `isRateLimited`, `shouldUseOfflineMode`, `getState`);
* `src/analysis/rateLimitHandler.ts` — `RateLimitHandler.clearQueue`.

JavaScript numbers are modelled as `Int` (timestamps, durations, status
codes) and as `ℚ` where fractional arithmetic matters (backoff jitter);
the JS `Map` is an insertion-ordered association list; `Array.sort` is the
stable `List.mergeSort`; `Date.now()` is an explicit `now` parameter;
promise rejection is an explicit value in the result type.
-/

/-- Model of a JavaScript value stored in the cache; enough structure to
express JS truthiness (`null`, `false`, `0` and `""` are falsy). -/
inductive JSValue where
  | vNull
  | vBool (b : Bool)
  | vNum (n : Int)
  | vStr (s : String)
deriving DecidableEq, Repr

/-- JS truthiness of a value. -/
def truthy : JSValue → Bool
  | .vNull => false
  | .vBool b => b
  | .vNum n => n != 0
  | .vStr s => s != ""

/-- JS truthiness of a nullable value (`null`, i.e. `none`, is falsy). -/
def optTruthy : Option JSValue → Bool
  | some v => truthy v
  | none => false

/-- Model of `toLowerCase()` on a method name: lower every character. -/
def jsToLower (s : String) : String :=
  String.mk (s.data.map Char.toLower)

/-- One cache entry: key, `storedAt` timestamp and cached data, mirroring
the `Map<string, \x7b timestamp, data \x7d>` of `ApiClient`. -/
abbrev Entry := String × Int × JSValue

/-- The cache is a JS `Map`, modelled as an insertion-ordered association
list whose keys are pairwise distinct. -/
abbrev Cache := List Entry

/-- The keys of a cache are pairwise distinct (a `Map` invariant). -/
def keysNodup (c : Cache) : Prop :=
  (c.map (fun e => e.1)).Nodup

/-- `Map.set`: replace the value in place if the key is present, otherwise
append at the end (JS `Map` preserves insertion order). -/
def mapSet (c : Cache) (k : String) (ts : Int) (v : JSValue) : Cache :=
  if c.any (fun e => e.1 == k) then
    c.map (fun e => if e.1 == k then (k, ts, v) else e)
  else
    c ++ [(k, ts, v)]

/-- `Map.get`: the timestamp and data of the first (unique) entry with the
given key, if any. -/
def mapGet (c : Cache) (k : String) : Option (Int × JSValue) :=
  (c.find? (fun e => e.1 == k)).map (fun e => e.2)

/-- `Map.delete`: remove the entry with the given key. -/
def mapDelete (c : Cache) (k : String) : Cache :=
  c.filter (fun e => e.1 != k)

/-- The comparator of the eviction sort in `ApiClient.addToCache`:
`(a, b) => a[1].timestamp - b[1].timestamp`, i.e. ascending `storedAt`. -/
def tsLe (a b : Entry) : Bool :=
  a.2.1 ≤ b.2.1

/-- The entries selected for eviction by `addToCache`: sort all entries by
`storedAt` (stable) and take the first 20. -/
def evictedOf (c : Cache) : Cache :=
  (List.mergeSort c tsLe).take 20

/-- The eviction pass of `addToCache`: delete each selected key. -/
def evictPass (c : Cache) : Cache :=
  (evictedOf c).foldl (fun acc e => mapDelete acc e.1) c

/-- `ApiClient.addToCache`: store `(timestamp := now, data)` under `key`;
then, if the size exceeds 100, delete the 20 oldest entries by timestamp. -/
def addToCache (now : Int) (k : String) (v : JSValue) (c : Cache) : Cache :=
  if 100 < (mapSet c k now v).length then evictPass (mapSet c k now v)
  else mapSet c k now v

/-- `ApiClient.getFromCache`: return the cached data if an entry exists and
`now - cached.timestamp < ttl`, else `null` (modelled as `none`). -/
def getFromCache (now : Int) (c : Cache) (k : String) (ttl : Int) :
    Option JSValue :=
  match mapGet c k with
  | some (ts, d) => if now - ts < ttl then some d else none
  | none => none

/-- A sequence of `put` calls: fold `addToCache` over `(now, key, value)`
triples, starting from the empty cache. -/
def runPuts (ops : List (Int × String × JSValue)) : Cache :=
  ops.foldl (fun c op => addToCache op.1 op.2.1 op.2.2 c) []

/-- The two stored fields of `OfflineModeService`: the manual offline flag
`_isOfflineMode` and the optional lockout deadline `_rateLimitedUntil`. -/
structure OfflineState where
  isOfflineMode : Bool
  rateLimitedUntil : Option Int
deriving DecidableEq, Repr

/-- The state record returned by `OfflineModeService.getState`. -/
structure OfflineModeState where
  isOfflineMode : Bool
  isRateLimited : Bool
  rateLimitedUntil : Option Int
deriving DecidableEq, Repr

/-- `OfflineModeService.isRateLimited`:
`_rateLimitedUntil !== null && Date.now() < _rateLimitedUntil`. -/
def isRateLimited (now : Int) (s : OfflineState) : Bool :=
  match s.rateLimitedUntil with
  | some u => now < u
  | none => false

/-- `OfflineModeService.shouldUseOfflineMode`:
`_isOfflineMode || isRateLimited()`. -/
def shouldUseOfflineMode (now : Int) (s : OfflineState) : Bool :=
  s.isOfflineMode || isRateLimited now s

/-- `OfflineModeService.toggleOfflineMode(force?)`: rejected (state and
returned flag unchanged) while rate limited; otherwise set `_isOfflineMode`
to `force` if given, else flip it, and return the new flag. -/
def toggleOfflineMode (now : Int) (force : Option Bool) (s : OfflineState) :
    Bool × OfflineState :=
  if isRateLimited now s then
    (s.isOfflineMode, s)
  else
    let b := match force with
      | some f => f
      | none => !s.isOfflineMode
    (b, { s with isOfflineMode := b })

/-- `OfflineModeService.setRateLimited(limitedForSeconds)` of
`offlineMode-previous.ts`: set `_rateLimitedUntil = now + seconds * 1000`
and force `_isOfflineMode = true`. -/
def setRateLimited (now : Int) (limitedForSeconds : Int) (s : OfflineState) :
    OfflineState :=
  { s with
    rateLimitedUntil := some (now + limitedForSeconds * 1000)
    isOfflineMode := true }

/-- `OfflineModeService.getState`: lazily clear an expired
`_rateLimitedUntil` (the JS guard `this._rateLimitedUntil && ...` also
checks truthiness, so a zero deadline is not cleared), then report the
state; returns the report together with the updated service state. -/
def getState (now : Int) (s : OfflineState) : OfflineModeState × OfflineState :=
  let s1 := match s.rateLimitedUntil with
    | some u => if u != 0 && u < now then { s with rateLimitedUntil := none } else s
    | none => s
  ({ isOfflineMode := s1.isOfflineMode
     isRateLimited := isRateLimited now s1
     rateLimitedUntil := s1.rateLimitedUntil }, s1)

/-- A transport-level failure as seen by `ApiClient`: an axios error whose
`response?.status` is `some status`, or `none` when no response arrived
(network-level failure). -/
structure ApiError where
  status : Option Nat
deriving DecidableEq, Repr

/-- Outcome of one dispatch of the underlying transport. -/
inductive Outcome where
  | ok (v : JSValue)
  | err (e : ApiError)
deriving DecidableEq, Repr

/-- `ApiClient.shouldRetry(error, retries)`: false once
`retries >= maxRetries`; false for a 429; otherwise retry exactly when no
response arrived or the status is 5xx. -/
def shouldRetry (maxRetries : Nat) (e : ApiError) (retries : Nat) : Bool :=
  if retries ≥ maxRetries then false
  else if e.status = some 429 then false
  else
    match e.status with
    | none => true
    | some s => 500 ≤ s && s < 600

/-- `ApiClient.calculateBackoff(retries)` with the `Math.random()` draw
made explicit: `min(initialBackoffMs * 2^retries * (random * 0.5 + 0.75),
30000)`. -/
def calculateBackoff (initialBackoffMs : ℚ) (random : ℚ) (retries : Nat) : ℚ :=
  let baseBackoff := initialBackoffMs * 2 ^ retries
  let jitter := random * (1 / 2) + 3 / 4
  min (baseBackoff * jitter) 30000

/-- The caller-supplied options of `ApiClient.request`. -/
structure ReqOptions where
  cacheKey : Option String
  cacheTTL : Option Int
  forceRefresh : Bool
deriving DecidableEq, Repr

/-- The effective cache key:
`options?.cacheKey || method + ":" + url + ":" + serializedPayload`
(a JS `||`, so an empty caller key falls back to the derived key). -/
def effCacheKey (method url payloadStr : String) (o : ReqOptions) : String :=
  match o.cacheKey with
  | some ck => if ck != "" then ck else method ++ ":" ++ url ++ ":" ++ payloadStr
  | none => method ++ ":" ++ url ++ ":" ++ payloadStr

/-- The effective TTL: `options?.cacheTTL || cacheTTLMs` (a JS `||`, so a
zero TTL falls back to the client default). -/
def effTTL (cacheTTLMs : Int) (o : ReqOptions) : Int :=
  match o.cacheTTL with
  | some t => if t != 0 then t else cacheTTLMs
  | none => cacheTTLMs

/-- `method.toLowerCase() === "get"`. -/
def isGetMethod (method : String) : Bool :=
  jsToLower method == "get"

/-- Result of one `ApiClient.request` call: the returned body, the offline
gate rejection, or the thrown transport error. -/
inductive ReqResult where
  | ok (v : JSValue)
  | offlineError
  | apiError (e : ApiError)
deriving DecidableEq, Repr

/-- Observable outcome of the retry loop: its result, how many times the
transport was dispatched, and the final cache. -/
structure LoopOut where
  result : Except ApiError JSValue
  dispatches : Nat
  cache : Cache
deriving Repr

/-- The retry loop of `ApiClient.request` (`while (retries <= maxRetries)`);
`fuel` counts the remaining permitted iterations (`maxRetries + 1 - retries`),
`transport i` is the outcome of the `i`-th dispatch, and `lastError` is the
error thrown should the loop exit without another outcome. On success a GET
response is written to the cache; a 429 stops the loop at once; otherwise
the loop continues exactly when `shouldRetry` approves. -/
def requestLoop (maxRetries : Nat) (isGet : Bool) (key : String) (now : Int)
    (transport : Nat → Outcome) (fuel retries dispatched : Nat)
    (lastError : Option ApiError) (cache : Cache) : LoopOut :=
  match fuel with
  | 0 => { result := .error (lastError.getD { status := none })
           dispatches := dispatched
           cache := cache }
  | fuel' + 1 =>
    match transport dispatched with
    | .ok v =>
      { result := .ok v
        dispatches := dispatched + 1
        cache := if isGet then addToCache now key v cache else cache }
    | .err e =>
      if e.status = some 429 then
        { result := .error e, dispatches := dispatched + 1, cache := cache }
      else if shouldRetry maxRetries e retries then
        requestLoop maxRetries isGet key now transport fuel' (retries + 1)
          (dispatched + 1) (some e) cache
      else
        { result := .error e, dispatches := dispatched + 1, cache := cache }

/-- Observable outcome of `ApiClient.request`: result, number of transport
dispatches, final cache, and the offline-controller state after the call
(the call never mutates it: the `setRateLimited` call in the source is
commented out). -/
structure ReqOut where
  result : ReqResult
  dispatches : Nat
  cache : Cache
  offline : OfflineState
deriving Repr

/-- `ApiClient.request(method, url, data, options)`. Fails at once when
`shouldUseOfflineMode()`; on a GET without `forceRefresh` returns the
cached value when the lookup result is truthy; otherwise runs the retry
loop starting at `retries = 0`. -/
def request (maxRetries : Nat) (cacheTTLMs : Int)
    (method url payloadStr : String) (o : ReqOptions) (now : Int)
    (transport : Nat → Outcome) (off : OfflineState) (cache : Cache) :
    ReqOut :=
  if shouldUseOfflineMode now off then
    { result := .offlineError, dispatches := 0, cache := cache, offline := off }
  else
    let key := effCacheKey method url payloadStr o
    let ttl := effTTL cacheTTLMs o
    let cachedResult : Option JSValue :=
      if isGetMethod method && !o.forceRefresh then
        getFromCache now cache key ttl
      else none
    if optTruthy cachedResult then
      { result := .ok (cachedResult.getD .vNull)
        dispatches := 0
        cache := cache
        offline := off }
    else
      let lo := requestLoop maxRetries (isGetMethod method) key now transport
        (maxRetries + 1) 0 0 none cache
      { result := match lo.result with
          | .ok v => .ok v
          | .error e => .apiError e
        dispatches := lo.dispatches
        cache := lo.cache
        offline := off }

/-- State of a `RateLimitHandler`: ids of the pending (not yet dispatched)
queued calls, and the promises already rejected, as `(id, error message)`
pairs. -/
structure PacerState where
  queue : List Nat
  rejected : List (Nat × String)
deriving DecidableEq, Repr

/-- `RateLimitHandler.clearQueue()`: reject every pending item with the
error `"Request queue cleared"` and empty the queue. -/
def clearQueue (st : PacerState) : PacerState :=
  { queue := []
    rejected :=
      st.rejected ++ st.queue.map (fun i => (i, "Request queue cleared")) }

/-- C2: while the offline controller reports offline, `request` fails at
once with the `Offline` error: no transport dispatch, no cache mutation,
no retry counted, offline state untouched. -/
theorem request_offline_gate (maxRetries : Nat) (cacheTTLMs : Int)
    (method url payloadStr : String) (o : ReqOptions) (now : Int)
    (transport : Nat → Outcome) (off : OfflineState) (cache : Cache)
    (h : shouldUseOfflineMode now off = true) :
    request maxRetries cacheTTLMs method url payloadStr o now transport off
        cache
      = { result := .offlineError, dispatches := 0, cache := cache,
          offline := off } := by
  unfold request
  rw [h]
  rfl

/-- Witness for C2 at a concrete offline state. -/
theorem request_offline_gate_witness :
    shouldUseOfflineMode 0 { isOfflineMode := true, rateLimitedUntil := none }
        = true ∧
    request 3 3600000 ("get") ("u") ("p")
        { cacheKey := none, cacheTTL := none, forceRefresh := false } 0
        (fun _ => .ok (.vStr "x"))
        { isOfflineMode := true, rateLimitedUntil := none } []
      = { result := .offlineError, dispatches := 0, cache := [],
          offline := { isOfflineMode := true, rateLimitedUntil := none } } :=
  ⟨by decide,
   request_offline_gate 3 3600000 ("get") ("u") ("p")
     { cacheKey := none, cacheTTL := none, forceRefresh := false } 0
     (fun _ => .ok (.vStr "x"))
     { isOfflineMode := true, rateLimitedUntil := none } [] (by decide)⟩

/-- C3: `setRateLimited d` sets `rateLimitedUntil = now + d * 1000` and
forces `isOfflineMode = true`; `shouldUseOfflineMode` is true immediately
afterwards; once the clock reaches the deadline, `isRateLimited` is false
while `isOfflineMode` stays true, also through a `getState` read (which
lazily clears only the expired deadline, never the manual flag). -/
theorem setRateLimited_spec (now d now2 : Int) (s : OfflineState)
    (h : now + d * 1000 ≤ now2) :
    (setRateLimited now d s).rateLimitedUntil = some (now + d * 1000) ∧
    (setRateLimited now d s).isOfflineMode = true ∧
    shouldUseOfflineMode now (setRateLimited now d s) = true ∧
    isRateLimited now2 (setRateLimited now d s) = false ∧
    (getState now2 (setRateLimited now d s)).2.isOfflineMode = true ∧
    (getState now2 (setRateLimited now d s)).1.isOfflineMode = true := by
  refine ⟨rfl, rfl, ?_, ?_, ?_, ?_⟩
  · simp [shouldUseOfflineMode, setRateLimited]
  · simp only [isRateLimited, setRateLimited]
    simpa using by omega
  · simp only [getState, setRateLimited]
    split <;> rfl
  · simp only [getState, setRateLimited]
    split <;> rfl

/-- Witness for C3: `setRateLimited 60` at time 0, read back at 60000 ms. -/
theorem setRateLimited_spec_witness :
    ((0 : Int) + 60 * 1000 ≤ 60000) ∧
    (shouldUseOfflineMode 0
        (setRateLimited 0 60 { isOfflineMode := false, rateLimitedUntil := none })
        = true ∧
      isRateLimited 60000
        (setRateLimited 0 60 { isOfflineMode := false, rateLimitedUntil := none })
        = false) :=
  ⟨by decide,
   ⟨(setRateLimited_spec 0 60 60000
       { isOfflineMode := false, rateLimitedUntil := none } (by decide)).2.2.1,
    (setRateLimited_spec 0 60 60000
       { isOfflineMode := false, rateLimitedUntil := none } (by decide)).2.2.2.1⟩⟩

/-- C4: while `isRateLimited()` holds, `toggleOfflineMode` — with or
without a `force` argument — leaves the state unchanged and returns the
pre-call `isOfflineMode` value. -/
theorem toggle_rejected_when_rate_limited (now : Int) (force : Option Bool)
    (s : OfflineState) (h : isRateLimited now s = true) :
    toggleOfflineMode now force s = (s.isOfflineMode, s) := by
  unfold toggleOfflineMode
  rw [h]
  rfl

/-- Witness for C4 at a concrete locked-out state, with `force := some true`. -/
theorem toggle_rejected_when_rate_limited_witness :
    isRateLimited 0 { isOfflineMode := false, rateLimitedUntil := some 10 }
        = true ∧
    toggleOfflineMode 0 (some true)
        { isOfflineMode := false, rateLimitedUntil := some 10 }
      = (false, { isOfflineMode := false, rateLimitedUntil := some 10 }) :=
  ⟨by decide,
   toggle_rejected_when_rate_limited 0 (some true)
     { isOfflineMode := false, rateLimitedUntil := some 10 } (by decide)⟩

/-- C7: `shouldRetry` is false once `retries ≥ maxRetries`; below the
limit it is false for every 4xx status (429 included), true when no
response arrived, and true for every 5xx status. -/
theorem shouldRetry_spec (maxRetries retries : Nat) :
    (maxRetries ≤ retries →
      ∀ e, shouldRetry maxRetries e retries = false) ∧
    (retries < maxRetries →
      (∀ s, 400 ≤ s → s < 500 →
        shouldRetry maxRetries { status := some s } retries = false) ∧
      shouldRetry maxRetries { status := none } retries = true ∧
      ∀ s, 500 ≤ s → s < 600 →
        shouldRetry maxRetries { status := some s } retries = true) := by
  constructor
  · intro h e
    simp [shouldRetry, Nat.le_of_lt, h]
  · intro h
    have h' : ¬ retries ≥ maxRetries := by omega
    refine ⟨?_, ?_, ?_⟩
    · intro s h4 h5
      by_cases h429 : s = 429
      · subst h429
        simp [shouldRetry, h']
      · have : ¬ (500 ≤ s ∧ s < 600) := by omega
        simp [shouldRetry, h', h429]
        omega
    · simp [shouldRetry, h']
    · intro s h5 h6
      have h429 : ¬ s = 429 := by omega
      simp [shouldRetry, h', h429]
      omega

/-- Witness for C7 with `maxRetries = 3`: a 404 and a 429 are not retried,
a network error and a 503 are, and attempt 3 is never retried. -/
theorem shouldRetry_spec_witness :
    (0 < 3 ∧
      shouldRetry 3 { status := some 404 } 0 = false ∧
      shouldRetry 3 { status := some 429 } 0 = false ∧
      shouldRetry 3 { status := none } 0 = true ∧
      shouldRetry 3 { status := some 503 } 0 = true) ∧
    (3 ≤ 3 ∧ shouldRetry 3 { status := some 503 } 3 = false) :=
  ⟨⟨by decide,
    ((shouldRetry_spec 3 0).2 (by decide)).1 404 (by decide) (by decide),
    ((shouldRetry_spec 3 0).2 (by decide)).1 429 (by decide) (by decide),
    ((shouldRetry_spec 3 0).2 (by decide)).2.1,
    ((shouldRetry_spec 3 0).2 (by decide)).2.2 503 (by decide) (by decide)⟩,
   ⟨by decide, (shouldRetry_spec 3 3).1 (by decide) { status := some 503 }⟩⟩

/-- C8: the computed backoff equals `min (b * 2^n * j) 30000` for a jitter
`j ∈ [3/4, 5/4]`, never exceeds the 30000 ms cap, and for a fixed random
draw (hence fixed jitter) is monotonically non-decreasing in the attempt
number. -/
theorem calculateBackoff_spec (b r : ℚ) (n : Nat)
    (hb : 0 ≤ b) (h0 : 0 ≤ r) (h1 : r < 1) :
    (∃ j : ℚ, 3 / 4 ≤ j ∧ j ≤ 5 / 4 ∧
      calculateBackoff b r n = min (b * 2 ^ n * j) 30000) ∧
    calculateBackoff b r n ≤ 30000 ∧
    ∀ m, n ≤ m → calculateBackoff b r n ≤ calculateBackoff b r m := by
  refine ⟨⟨r * (1 / 2) + 3 / 4, by linarith, by linarith, rfl⟩, ?_, ?_⟩
  · exact min_le_right _ _
  · intro m hm
    unfold calculateBackoff
    refine min_le_min ?_ le_rfl
    have hj : (0 : ℚ) ≤ r * (1 / 2) + 3 / 4 := by linarith
    have hpow : (2 : ℚ) ^ n ≤ 2 ^ m := by
      exact pow_le_pow_right₀ (by norm_num) hm
    exact mul_le_mul_of_nonneg_right (mul_le_mul_of_nonneg_left hpow hb) hj

/-- Witness for C8 at `b = 1000`, `r = 0`, attempts 2 and 3. -/
theorem calculateBackoff_spec_witness :
    ((0 : ℚ) ≤ 1000 ∧ (0 : ℚ) ≤ 0 ∧ (0 : ℚ) < 1) ∧
    calculateBackoff 1000 0 2 ≤ 30000 ∧
    calculateBackoff 1000 0 2 ≤ calculateBackoff 1000 0 3 :=
  ⟨⟨by norm_num, by norm_num, by norm_num⟩,
   (calculateBackoff_spec 1000 0 2 (by norm_num) (by norm_num)
     (by norm_num)).2.1,
   (calculateBackoff_spec 1000 0 2 (by norm_num) (by norm_num)
     (by norm_num)).2.2 3 (by norm_num)⟩

/-- C9: `clearQueue` empties the queue and rejects every one of the `N`
pending calls with the explicit `"Request queue cleared"` error, leaving
none pending. -/
theorem clearQueue_spec (st : PacerState) :
    (clearQueue st).queue = [] ∧
    (clearQueue st).rejected.length
      = st.rejected.length + st.queue.length ∧
    ∀ i ∈ st.queue,
      (i, "Request queue cleared") ∈ (clearQueue st).rejected := by
  refine ⟨rfl, by simp [clearQueue], ?_⟩
  intro i hi
  have hmem : (i, "Request queue cleared")
      ∈ st.queue.map (fun j => (j, "Request queue cleared")) :=
    List.mem_map_of_mem _ hi
  simp only [clearQueue]
  exact List.mem_append_right _ hmem

lemma requestLoop_dispatches_le (maxRetries : Nat) (isGet : Bool)
    (key : String) (now : Int) (transport : Nat → Outcome) (fuel : Nat) :
    ∀ retries dispatched lastError cache,
      dispatched ≤ (requestLoop maxRetries isGet key now transport fuel
        retries dispatched lastError cache).dispatches := by
  induction fuel with
  | zero =>
    intro retries dispatched lastError cache
    simp [requestLoop]
  | succ f ih =>
    intro retries dispatched lastError cache
    simp only [requestLoop]
    cases htr : transport dispatched with
    | ok v => simp
    | err e =>
      by_cases h429 : e.status = some 429
      · simp [h429]
      · by_cases hr : shouldRetry maxRetries e retries = true
        · simp only [h429, hr, if_true, if_false, ite_true, ite_false]
          exact le_trans (Nat.le_succ _) (ih _ _ _ _)
        · simp [h429, hr]

lemma requestLoop_dispatches_pos (maxRetries : Nat) (isGet : Bool)
    (key : String) (now : Int) (transport : Nat → Outcome) (f : Nat)
    (retries dispatched : Nat) (lastError : Option ApiError) (cache : Cache) :
    dispatched + 1 ≤ (requestLoop maxRetries isGet key now transport (f + 1)
      retries dispatched lastError cache).dispatches := by
  simp only [requestLoop]
  cases htr : transport dispatched with
  | ok v => simp
  | err e =>
    by_cases h429 : e.status = some 429
    · simp [h429]
    · by_cases hr : shouldRetry maxRetries e retries = true
      · simp only [h429, hr, if_true, if_false, ite_true, ite_false]
        exact requestLoop_dispatches_le maxRetries isGet key now transport f
          _ _ _ _
      · simp [h429, hr]

/-- C10: a read-method call whose cache holds a fresh, unexpired entry with
a falsy value (null, 0, false, "") still dispatches the network at least
once: the cache-hit test checks the truthiness of the looked-up value, not
the presence of an entry. -/
theorem request_falsy_fresh_entry_dispatches (maxRetries : Nat)
    (cacheTTLMs : Int) (method url payloadStr : String) (o : ReqOptions)
    (now : Int) (transport : Nat → Outcome) (off : OfflineState)
    (cache : Cache) (v : JSValue)
    (hoff : shouldUseOfflineMode now off = false)
    (hget : jsToLower method = "get")
    (hfr : o.forceRefresh = false)
    (hfresh : getFromCache now cache (effCacheKey method url payloadStr o)
        (effTTL cacheTTLMs o) = some v)
    (hfalsy : truthy v = false) :
    1 ≤ (request maxRetries cacheTTLMs method url payloadStr o now transport
        off cache).dispatches := by
  have hG : isGetMethod method = true := by
    simp [isGetMethod, hget]
  unfold request
  rw [hoff]
  simp only [Bool.false_eq_true, if_false, hG, hfr, Bool.not_false,
    Bool.and_self, if_true, hfresh, optTruthy, hfalsy, ite_true, ite_false]
  simpa using requestLoop_dispatches_pos maxRetries true
    (effCacheKey method url payloadStr o) now transport maxRetries 0 0 none
    cache

/-- Witness for C10: a fresh entry storing the falsy value 0 under the
requested key still produces a transport dispatch. -/
theorem request_falsy_fresh_entry_dispatches_witness :
    (shouldUseOfflineMode 5 { isOfflineMode := false, rateLimitedUntil := none }
        = false ∧
      jsToLower ("get") = "get" ∧
      getFromCache 5 [(("k"), (0, .vNum 0))]
        (effCacheKey ("get") ("u") ("p")
          { cacheKey := some "k", cacheTTL := none, forceRefresh := false })
        (effTTL 3600000
          { cacheKey := some "k", cacheTTL := none, forceRefresh := false })
        = some (.vNum 0) ∧
      truthy (.vNum 0) = false) ∧
    1 ≤ (request 3 3600000 ("get") ("u") ("p")
        { cacheKey := some "k", cacheTTL := none, forceRefresh := false } 5
        (fun _ => .ok (.vStr "fresh"))
        { isOfflineMode := false, rateLimitedUntil := none }
        [(("k"), (0, .vNum 0))]).dispatches :=
  ⟨⟨by decide, by decide, by decide, by decide⟩,
   request_falsy_fresh_entry_dispatches 3 3600000 ("get") ("u") ("p")
     { cacheKey := some "k", cacheTTL := none, forceRefresh := false } 5
     (fun _ => .ok (.vStr "fresh"))
     { isOfflineMode := false, rateLimitedUntil := none }
     [(("k"), (0, .vNum 0))] (.vNum 0) (by decide) (by decide) (by decide)
     (by decide) (by decide)⟩

/-- C1 (code observation): with the transport failing with HTTP 429 on the
first attempt and the controller online, `request` stops after one
dispatch and surfaces the 429 error, but the offline-controller state is
untouched — `setRateLimited` is commented out in the source — so a
subsequent `shouldUseOfflineMode()` still returns `false`, contradicting
the claimed enter-rate-limited side effect. -/
theorem request_429_no_rate_limit_entry_eval :
    (request 3 3600000 ("get") ("u") ("p")
        { cacheKey := none, cacheTTL := none, forceRefresh := false } 0
        (fun _ => .err { status := some 429 })
        { isOfflineMode := false, rateLimitedUntil := none } []).result
      = .apiError { status := some 429 } ∧
    (request 3 3600000 ("get") ("u") ("p")
        { cacheKey := none, cacheTTL := none, forceRefresh := false } 0
        (fun _ => .err { status := some 429 })
        { isOfflineMode := false, rateLimitedUntil := none } []).dispatches
      = 1 ∧
    (request 3 3600000 ("get") ("u") ("p")
        { cacheKey := none, cacheTTL := none, forceRefresh := false } 0
        (fun _ => .err { status := some 429 })
        { isOfflineMode := false, rateLimitedUntil := none } []).offline
      = { isOfflineMode := false, rateLimitedUntil := none } ∧
    shouldUseOfflineMode 0
        (request 3 3600000 ("get") ("u") ("p")
          { cacheKey := none, cacheTTL := none, forceRefresh := false } 0
          (fun _ => .err { status := some 429 })
          { isOfflineMode := false, rateLimitedUntil := none } []).offline
      = false := by
  refine ⟨by decide, by decide, by decide, by decide⟩

lemma find?_append_key (c : Cache) (k : String) (ts : Int) (v : JSValue)
    (h : c.any (fun e => e.1 == k) = false) :
    (c ++ [(k, ts, v)]).find? (fun e => e.1 == k) = some (k, ts, v) := by
  induction c with
  | nil => simp [List.find?]
  | cons e rest ih =>
    simp only [List.any_cons, Bool.or_eq_false_iff] at h
    rw [List.cons_append, List.find?_cons_of_neg _ (by simp [h.1]),
      ih h.2]

lemma find?_map_set (c : Cache) (k : String) (ts : Int) (v : JSValue)
    (h : c.any (fun e => e.1 == k) = true) :
    (c.map (fun e => if e.1 == k then (k, ts, v) else e)).find?
        (fun e => e.1 == k)
      = some (k, ts, v) := by
  induction c with
  | nil => simp at h
  | cons e rest ih =>
    by_cases he : (e.1 == k) = true
    · rw [List.map_cons, if_pos he,
        List.find?_cons_of_pos _ (by simp [beq_self_eq_true])]
    · have h' : rest.any (fun e => e.1 == k) = true := by
        simpa [List.any_cons, he] using h
      rw [List.map_cons, if_neg he,
        List.find?_cons_of_neg _ (by simp [he]), ih h']

lemma mapGet_mapSet (c : Cache) (k : String) (ts : Int) (v : JSValue) :
    mapGet (mapSet c k ts v) k = some (ts, v) := by
  unfold mapGet mapSet
  cases hb : c.any (fun e => e.1 == k) with
  | true =>
    rw [if_pos rfl, find?_map_set c k ts v hb]
    rfl
  | false =>
    rw [if_neg (by simp), find?_append_key c k ts v hb]
    rfl

/-- C5: the cache lookup returns a stored value exactly when an entry for
the key is present — i.e. a `put` stored it (at `storedAt = now` of the
put, first conjunct) and no later eviction or overwrite removed it — and
that entry is unexpired (`now - storedAt < ttl`); in every other case the
lookup behaves as a miss, without mutating the cache. -/
theorem getFromCache_spec :
    (∀ (c : Cache) (k : String) (ts : Int) (v : JSValue),
      mapGet (mapSet c k ts v) k = some (ts, v)) ∧
    (∀ (now : Int) (c : Cache) (k : String) (ttl : Int) (v : JSValue),
      getFromCache now c k ttl = some v ↔
        ∃ t, mapGet c k = some (t, v) ∧ now - t < ttl) := by
  refine ⟨mapGet_mapSet, ?_⟩
  intro now c k ttl v
  unfold getFromCache
  cases h : mapGet c k with
  | none => simp
  | some p =>
    obtain ⟨ts, d⟩ := p
    by_cases hlt : now - ts < ttl
    · simp only [hlt, if_true, ite_true, Option.some.injEq]
      constructor
      · rintro rfl
        exact ⟨ts, rfl, hlt⟩
      · rintro ⟨t, ht, hlt2⟩
        obtain ⟨rfl, rfl⟩ : ts = t ∧ d = v := by
          simpa using ht
        rfl
    · simp only [hlt, if_false, ite_false]
      constructor
      · intro hc
        exact absurd hc (by simp)
      · rintro ⟨t, ht, hlt2⟩
        obtain ⟨rfl, rfl⟩ : ts = t ∧ d = v := by
          simpa using ht
        exact absurd hlt2 hlt

lemma foldl_mapDelete (es : List Entry) (c : Cache) :
    es.foldl (fun acc e => mapDelete acc e.1) c
      = c.filter (fun x => !(es.any (fun e => x.1 == e.1))) := by
  induction es generalizing c with
  | nil => simp
  | cons e es ih =>
    rw [List.foldl_cons, ih]
    unfold mapDelete
    rw [List.filter_filter]
    apply List.filter_congr
    intro x _
    simp [List.any_cons, Bool.not_or, Bool.and_comm, bne]

lemma evictPass_eq_filter (c1 : Cache) :
    evictPass c1
      = c1.filter (fun x => !((evictedOf c1).any (fun e => x.1 == e.1))) :=
  foldl_mapDelete _ _

lemma length_mapSet (c : Cache) (k : String) (ts : Int) (v : JSValue) :
    (mapSet c k ts v).length ≤ c.length + 1 := by
  unfold mapSet
  split
  · simp
  · simp

lemma keys_mapSet_of_mem (c : Cache) (k : String) (ts : Int) (v : JSValue)
    (h : c.any (fun e => e.1 == k) = true) :
    (mapSet c k ts v).map (fun e => e.1) = c.map (fun e => e.1) := by
  unfold mapSet
  rw [if_pos h, List.map_map]
  apply List.map_congr_left
  intro e _
  simp only [Function.comp_apply]
  by_cases he : (e.1 == k) = true
  · rw [if_pos he]
    exact (eq_of_beq he).symm
  · rw [if_neg he]

lemma keysNodup_mapSet (c : Cache) (k : String) (ts : Int) (v : JSValue)
    (h : keysNodup c) : keysNodup (mapSet c k ts v) := by
  unfold keysNodup at h ⊢
  cases hb : c.any (fun e => e.1 == k) with
  | true =>
    rw [keys_mapSet_of_mem c k ts v hb]
    exact h
  | false =>
    unfold mapSet
    rw [if_neg (by simp [hb]), List.map_append, List.nodup_append]
    refine ⟨h, by simp, ?_⟩
    intro a ha ha2
    simp only [List.map_cons, List.map_nil, List.mem_singleton] at ha2
    rw [List.mem_map] at ha
    obtain ⟨e, he, hek⟩ := ha
    have hany : c.any (fun e => e.1 == k) = true := by
      rw [List.any_eq_true]
      refine ⟨e, he, ?_⟩
      rw [hek, ha2]
      exact beq_self_eq_true k
    rw [hb] at hany
    cases hany

lemma tsLe_trans :
    ∀ a b c : Entry, tsLe a b = true → tsLe b c = true → tsLe a c = true := by
  intro a b c hab hbc
  simp only [tsLe, decide_eq_true_eq] at hab hbc ⊢
  exact le_trans hab hbc

lemma tsLe_total : ∀ a b : Entry, (tsLe a b || tsLe b a) = true := by
  intro a b
  simp only [tsLe, Bool.or_eq_true, decide_eq_true_eq]
  exact le_total _ _

lemma keys_sorted_nodup (c1 : Cache) (h : keysNodup c1) :
    ((List.mergeSort c1 tsLe).map (fun e => e.1)).Nodup := by
  unfold keysNodup at h
  exact h.perm ((List.mergeSort_perm c1 tsLe).map (fun e => e.1)).symm

lemma evictPass_perm_drop (c1 : Cache) (h : keysNodup c1) :
    (evictPass c1).Perm ((List.mergeSort c1 tsLe).drop 20) := by
  have hp : (List.mergeSort c1 tsLe).Perm c1 := List.mergeSort_perm c1 tsLe
  have hkeys := keys_sorted_nodup c1 h
  have hsplit : List.mergeSort c1 tsLe
      = evictedOf c1 ++ (List.mergeSort c1 tsLe).drop 20 := by
    unfold evictedOf
    rw [List.take_append_drop]
  have hnd2 : ((evictedOf c1 ++ (List.mergeSort c1 tsLe).drop 20).map
      (fun e => e.1)).Nodup := by
    rw [← hsplit]
    exact hkeys
  rw [List.map_append, List.nodup_append] at hnd2
  obtain ⟨-, -, hdisj⟩ := hnd2
  have htake : (evictedOf c1).filter
      (fun x => !((evictedOf c1).any (fun e => x.1 == e.1))) = [] := by
    rw [List.filter_eq_nil_iff]
    intro a ha
    show ¬ (!((evictedOf c1).any (fun e => a.1 == e.1))) = true
    rw [Bool.not_eq_true']
    simp only [Bool.not_eq_false]
    rw [List.any_eq_true]
    exact ⟨a, ha, beq_self_eq_true a.1⟩
  have hdrop : ((List.mergeSort c1 tsLe).drop 20).filter
      (fun x => !((evictedOf c1).any (fun e => x.1 == e.1)))
      = (List.mergeSort c1 tsLe).drop 20 := by
    rw [List.filter_eq_self]
    intro a ha
    show (!((evictedOf c1).any (fun e => a.1 == e.1))) = true
    rw [Bool.not_eq_true']
    rw [List.any_eq_false]
    intro e he hbeq
    have heq : a.1 = e.1 := eq_of_beq hbeq
    exact hdisj (List.mem_map_of_mem _ he) (heq ▸ List.mem_map_of_mem _ ha)
  rw [evictPass_eq_filter]
  have hfil := List.Perm.filter
    (fun x => !((evictedOf c1).any (fun e => x.1 == e.1))) hp.symm
  have hform : (List.mergeSort c1 tsLe).filter
      (fun x => !((evictedOf c1).any (fun e => x.1 == e.1)))
      = (List.mergeSort c1 tsLe).drop 20 := by
    conv_lhs => rw [hsplit]
    rw [List.filter_append, htake, hdrop, List.nil_append]
  exact hform ▸ hfil

lemma evict_sorted_pairwise (c1 : Cache) :
    ∀ e ∈ evictedOf c1, ∀ r ∈ (List.mergeSort c1 tsLe).drop 20,
      e.2.1 ≤ r.2.1 := by
  have hs : List.Pairwise (fun a b => tsLe a b = true) (List.mergeSort c1 tsLe) :=
    List.sorted_mergeSort tsLe_trans tsLe_total c1
  have hs2 : List.Pairwise (fun a b => tsLe a b = true)
      (evictedOf c1 ++ (List.mergeSort c1 tsLe).drop 20) := by
    unfold evictedOf
    rw [List.take_append_drop]
    exact hs
  intro e he r hr
  have := (List.pairwise_append.mp hs2).2.2 e he r hr
  simpa [tsLe, decide_eq_true_eq] using this

lemma length_evictPass (c1 : Cache) (h : keysNodup c1) :
    (evictPass c1).length = c1.length - 20 := by
  rw [(evictPass_perm_drop c1 h).length_eq, List.length_drop,
    (List.mergeSort_perm c1 tsLe).length_eq]

lemma keysNodup_evictPass (c1 : Cache) (h : keysNodup c1) :
    keysNodup (evictPass c1) := by
  rw [evictPass_eq_filter]
  unfold keysNodup at h ⊢
  exact List.Nodup.sublist ((List.filter_sublist c1).map (fun e => e.1)) h

lemma addToCache_inv (c : Cache) (now : Int) (k : String) (v : JSValue)
    (hlen : c.length ≤ 100) (hnd : keysNodup c) :
    (addToCache now k v c).length ≤ 100 ∧
      keysNodup (addToCache now k v c) := by
  have hnd1 : keysNodup (mapSet c k now v) := keysNodup_mapSet c k now v hnd
  have hlen1 : (mapSet c k now v).length ≤ c.length + 1 :=
    length_mapSet c k now v
  unfold addToCache
  split
  · next h =>
    refine ⟨?_, keysNodup_evictPass _ hnd1⟩
    rw [length_evictPass _ hnd1]
    omega
  · next h =>
    exact ⟨by omega, hnd1⟩

lemma runPuts_inv (ops : List (Int × String × JSValue)) :
    ∀ c : Cache, c.length ≤ 100 → keysNodup c →
      (ops.foldl (fun c op => addToCache op.1 op.2.1 op.2.2 c) c).length ≤ 100 ∧
      keysNodup (ops.foldl (fun c op => addToCache op.1 op.2.1 op.2.2 c) c) := by
  induction ops with
  | nil =>
    intro c h1 h2
    exact ⟨h1, h2⟩
  | cons op ops ih =>
    intro c h1 h2
    rw [List.foldl_cons]
    obtain ⟨g1, g2⟩ := addToCache_inv c op.1 op.2.1 op.2.2 h1 h2
    exact ih _ g1 g2

/-- C6: for any well-formed cache (at most 100 entries, distinct keys) a
`put` keeps the entry count within the bound, and over every sequence of
`put` calls from the empty cache the bound holds after each eviction pass;
when the insertion pushes the count past 100, the inserted map splits (as
a permutation) into the 20 evicted entries and the retained cache, and
every evicted entry's `storedAt` is at most every retained entry's
`storedAt` — the retained entries are exactly the most recent ones. -/
theorem addToCache_eviction_spec (ops : List (Int × String × JSValue))
    (c : Cache) (now : Int) (k : String) (v : JSValue)
    (hlen : c.length ≤ 100) (hnd : keysNodup c) :
    (runPuts ops).length ≤ 100 ∧
    (addToCache now k v c).length ≤ 100 ∧
    (100 < (mapSet c k now v).length →
      (mapSet c k now v).Perm
        (evictedOf (mapSet c k now v) ++ addToCache now k v c) ∧
      (evictedOf (mapSet c k now v)).length = 20 ∧
      ∀ e ∈ evictedOf (mapSet c k now v), ∀ r ∈ addToCache now k v c,
        e.2.1 ≤ r.2.1) := by
  refine ⟨?_, (addToCache_inv c now k v hlen hnd).1, ?_⟩
  · exact (runPuts_inv ops [] (by simp) (by simp [keysNodup])).1
  · intro h
    have hnd1 : keysNodup (mapSet c k now v) := keysNodup_mapSet c k now v hnd
    have hres : addToCache now k v c = evictPass (mapSet c k now v) := by
      unfold addToCache
      rw [if_pos h]
    have hlen1 : (mapSet c k now v).length ≤ c.length + 1 :=
      length_mapSet c k now v
    refine ⟨?_, ?_, ?_⟩
    · rw [hres]
      have h1 : (mapSet c k now v).Perm
          (List.mergeSort (mapSet c k now v) tsLe) :=
        (List.mergeSort_perm _ tsLe).symm
      have h3 : (evictedOf (mapSet c k now v) ++
          (List.mergeSort (mapSet c k now v) tsLe).drop 20).Perm
          (evictedOf (mapSet c k now v) ++ evictPass (mapSet c k now v)) :=
        List.Perm.append_left _ (evictPass_perm_drop _ hnd1).symm
      refine h1.trans ?_
      have h2 : List.mergeSort (mapSet c k now v) tsLe
          = evictedOf (mapSet c k now v) ++
            (List.mergeSort (mapSet c k now v) tsLe).drop 20 := by
        unfold evictedOf
        rw [List.take_append_drop]
      conv_lhs => rw [h2]
      exact h3
    · unfold evictedOf
      rw [List.length_take]
      have hl : (List.mergeSort (mapSet c k now v) tsLe).length
          = (mapSet c k now v).length := (List.mergeSort_perm _ tsLe).length_eq
      rw [hl]
      exact min_eq_left (by omega)
    · intro e he r hr
      rw [hres] at hr
      have hr2 : r ∈ (List.mergeSort (mapSet c k now v) tsLe).drop 20 :=
        ((evictPass_perm_drop _ hnd1).mem_iff).1 hr
      exact evict_sorted_pairwise _ e he r hr2

/-- Witness for C6 at the empty cache (hypotheses hold; the eviction branch
is vacuous because one entry does not exceed the bound). -/
theorem addToCache_eviction_spec_witness :
    (([] : Cache).length ≤ 100 ∧ keysNodup []) ∧
    (runPuts []).length ≤ 100 ∧
    (addToCache 0 ("a") JSValue.vNull []).length ≤ 100 :=
  ⟨⟨by decide, by simp [keysNodup]⟩,
   (addToCache_eviction_spec [] [] 0 ("a") JSValue.vNull (by decide)
     (by simp [keysNodup])).1,
   (addToCache_eviction_spec [] [] 0 ("a") JSValue.vNull (by decide)
     (by simp [keysNodup])).2.1⟩
